import Mathlib

/-!
Verification of the docker.rs client library core: the uniform call contract
(`get_response_from_api`), container listing/creation operations
(`src/api/containers.rs`), and the version endpoint (`src/api/version.rs`),
shallowly embedded in Lean.

The transport (`DockerApiClient::request`) and the serde_json library are
external collaborators and appear as function-valued parameters; the request
formatter and response parser (`api_utils` / `utils` modules, not part of the
sources at hand) are modelled from the specification.
-/

/-! ## List-level string helpers -/

/-- `startsL pat l` is true when `pat` is an initial segment of `l`. -/
def startsL : List Char → List Char → Bool
  | [], _ => true
  | _ :: _, [] => false
  | a :: as, b :: bs => a == b && startsL as bs

/-- `hasSubL pat l` is true when `pat` occurs contiguously somewhere in `l`. -/
def hasSubL (pat : List Char) : List Char → Bool
  | [] => startsL pat []
  | c :: rest => startsL pat (c :: rest) || hasSubL pat rest

/-- `hasSubstr s pat` is true when `pat` occurs contiguously in `s`. -/
def hasSubstr (s pat : String) : Bool :=
  hasSubL pat.data s.data

/-! ## The request formatter and response parser

These live in the repository's `api::api_utils` and `utils` modules, which are
not among the sources at hand; they are modelled from the specification. -/

/-- The HTTP method tokens accepted by the formatter ("a small fixed set"). -/
def http_methods : List String := ["GET", "POST", "PUT", "DELETE", "HEAD"]

/-- Modelled from the spec: `api_utils::get_formatted_api_request` (module
`api::api_utils`, absent from the sources). Given (endpoint path, HTTP method,
body string) it produces a complete request buffer — request line
`METHOD /path HTTP/1.1`, headers (host, and a content-length header when a
body is present), blank-line separator, body appended verbatim — or fails
(`None`) when the path is empty or does not begin with `/`, or the method is
not in the fixed set. -/
def get_formatted_api_request (api_endpoint method body : String) : Option String :=
  if api_endpoint.data.isEmpty then none
  else if !startsL ['/'] api_endpoint.data then none
  else if !http_methods.contains method then none
  else some (method ++ " " ++ api_endpoint ++ " HTTP/1.1\r\nHost: localhost\r\n"
    ++ (if body.data.isEmpty then ""
        else "Content-Length: " ++ toString body.length ++ "\r\n")
    ++ "\r\n" ++ body)

/-- The HTTP header/body separator: a blank line, i.e. CRLF CRLF. -/
def httpSep : List Char := ['\r', '\n', '\r', '\n']

/-- Everything after the first occurrence of `sep` in `l`, or `none` when
`sep` does not occur. -/
def extractAfterSep (sep : List Char) : List Char → Option (List Char)
  | [] => none
  | c :: rest =>
    if startsL sep (c :: rest) then some ((c :: rest).drop sep.length)
    else extractAfterSep sep rest

/-- Modelled from the spec: `utils::parse_http_response_body` (module `utils`,
absent from the sources). Given raw response text it validates the presence of
a status line and of the blank-line header/body separator, and returns the
body: exactly the text past the first occurrence of the separator. It fails
(`None`) when the input is empty, when no status line is present, or when no
separator is found. -/
def parse_http_response_body (resp : String) : Option String :=
  if resp.data.isEmpty then none
  else if !startsL "HTTP/".data resp.data then none
  else match extractAfterSep httpSep resp.data with
    | some body => some (String.mk body)
    | none => none

/-! ## Typed payloads (`src/api/containers.rs`) -/

/-- A port mapping record of a container listing. -/
structure Port where
  PrivatePort : Nat
  PublicPort : Nat
  «Type» : String

/-- The host-configuration part of a container listing record. -/
structure HostConfig where
  NetworkMode : String

/-- A mount-point record of a container listing. -/
structure Mounts where
  Name : String
  Source : String
  Destination : String
  Driver : String
  Mode : String
  RW : Bool
  Propagation : String

/-- One container record of a listing response. -/
structure Container where
  Id : String
  Names : List String
  Image : String
  ImageID : String
  Command : String
  State : String
  Status : String
  Ports : List Port
  Labels : Option (List (String × String))
  SizeRw : Option Nat
  SizeRootFs : Nat
  HostConfig : HostConfig
  Mounts : List Mounts

/-- Structure for implementing Container Config. Derives `Default` for being
able to get started even with minimal config. -/
structure ContainerConfig where
  Image : String
  Cmd : List String
  Hostname : String
  Domainname : String
  User : String
  AttachStdin : Bool
  AttachStdout : Bool
  AttachStderr : Bool
  Tty : Bool
  OpenStdin : Bool
  StdinOnce : Bool
  Env : List String
  Entrypoint : String
  Labels : Option (List (String × String))
  WorkingDir : String

/-- The derived `Default` of `ContainerConfig`: empty strings and sequences,
false booleans, absent optional map. -/
def ContainerConfig.default : ContainerConfig :=
  { Image := "", Cmd := [], Hostname := "", Domainname := "", User := ""
    AttachStdin := false, AttachStdout := false, AttachStderr := false
    Tty := false, OpenStdin := false, StdinOnce := false, Env := []
    Entrypoint := "", Labels := none, WorkingDir := "" }

/-- The acknowledgment returned by container creation. -/
structure CreateContainerResponse where
  Id : String

/-! ## External collaborators -/

/-- Modelled from the spec: the `DockerApiClient` transport trait (declared
outside the sources at hand). Its one capability sends a fully formed request
over the underlying connection and returns the raw response text, or `none`
when no response was obtained. -/
structure DockerApiClient where
  request : String → Option String

/-- The serde_json library calls the resource layer makes, as abstract
function-valued fields: typed JSON decoding of a container list and of a
creation acknowledgment, and JSON encoding of a container configuration.
Each returns either the value or the library's diagnostic text. -/
structure SerdeJson where
  from_str_containers : String → Except String (List Container)
  from_str_create_response : String → Except String CreateContainerResponse
  to_string_config : ContainerConfig → Except String String

/-! ## The `Containers` trait operations (`src/api/containers.rs`) -/

/-- It formats the API request using the given parameters, sends it to the
docker daemon and returns the response body of the request if the request was
successful, else an error (`Containers::get_response_from_api`). -/
def get_response_from_api (c : DockerApiClient)
    (api_endpoint method body : String) : Except String String :=
  match get_formatted_api_request api_endpoint method body with
  | none => .error "Error while preparing request"
  | some req =>
    match c.request req with
    | some resp =>
      match parse_http_response_body resp with
      | some body => .ok body
      | none => .error "Response body was not valid"
    | none => .error "Got no response from docker host."

/-- Get containers from the API endpoint with the method and query parameter;
helper for the `Containers` trait (`Containers::get_containers`). -/
def get_containers (sj : SerdeJson) (c : DockerApiClient)
    (api_endpoint method query_param : String) : Except String (List Container) :=
  match get_response_from_api c api_endpoint method query_param with
  | .error err => .error err
  | .ok json_resp =>
    match sj.from_str_containers json_resp with
    | .ok info => .ok info
    | .error err => .error ("Error while deserializing JSON response : " ++ err)

/-- The query string built by `Containers::list_running_containers`. -/
def list_running_containers_query (limit : Option Nat) : String :=
  match limit with
  | some limit => "?size=true&limit=" ++ toString limit
  | none => "?size=true"

/-- List all the running containers (`Containers::list_running_containers`). -/
def list_running_containers (sj : SerdeJson) (c : DockerApiClient)
    (limit : Option Nat) : Except String (List Container) :=
  get_containers sj c "/containers/json" "GET" (list_running_containers_query limit)

/-- The query string built by `Containers::list_all_containers`. -/
def list_all_containers_query (limit : Option Nat) : String :=
  match limit with
  | some limit => "?all=true&size=true&limit=" ++ toString limit
  | none => "?all=true&size=true"

/-- List all containers whether running or stopped
(`Containers::list_all_containers`). -/
def list_all_containers (sj : SerdeJson) (c : DockerApiClient)
    (limit : Option Nat) : Except String (List Container) :=
  get_containers sj c "/containers/json" "GET" (list_all_containers_query limit)

/-- The query string built by `Containers::get_container_details_with_filter`. -/
def get_container_details_with_filter_query (filter : String)
    (limit : Option Nat) : String :=
  match limit with
  | some limit =>
    "?all=true&size=true&limit=" ++ toString limit ++ "&filter=" ++ filter
  | none => "?all=true&size=true&filter=" ++ filter

/-- List containers with the filter provided
(`Containers::get_container_details_with_filter`). -/
def get_container_details_with_filter (sj : SerdeJson) (c : DockerApiClient)
    (filter : String) (limit : Option Nat) : Except String (List Container) :=
  get_containers sj c "/containers/json" "GET"
    (get_container_details_with_filter_query filter limit)

/-- Create a container from the `ContainerConfig` structure with the provided
name (`Containers::create_container`). -/
def create_container (sj : SerdeJson) (c : DockerApiClient)
    (name : String) (config : ContainerConfig) :
    Except String CreateContainerResponse :=
  match sj.to_string_config config with
  | .error err => .error ("Error while serialize Cotainer config : " ++ err)
  | .ok body =>
    match get_response_from_api c ("/containers/create?name=" ++ name) "POST" body with
    | .ok resp =>
      match sj.from_str_create_response resp with
      | .ok info => .ok info
      | .error err => .error ("Error while deserializing JSON response : " ++ err)
    | .error err => .error err

/-- The configuration built by `Containers::create_container_minimal`: the
supplied image and command over the derived defaults. -/
def container_config_minimal (image : String) (cmd : List String) : ContainerConfig :=
  { ContainerConfig.default with Image := image, Cmd := cmd }

/-- Creates a docker container from minimal configuration
(`Containers::create_container_minimal`). -/
def create_container_minimal (sj : SerdeJson) (c : DockerApiClient)
    (name image : String) (cmd : List String) :
    Except String CreateContainerResponse :=
  create_container sj c name (container_config_minimal image cmd)

/-! ## The `Version` trait operation (`src/api/version.rs`) -/

/-- Get version info for Docker; returns a JSON serialized string containing
this information (`Version::get_version_info`). -/
def get_version_info (c : DockerApiClient) : Except String String :=
  match get_formatted_api_request "/info" "GET" "" with
  | none => .error "Error while preparing request"
  | some req =>
    match c.request req with
    | some resp =>
      match parse_http_response_body resp with
      | some body => .ok body
      | none => .error "Response body was not valid"
    | none => .error "Got no response from docker host."

def serdeDecodeFail : SerdeJson :=
  { from_str_containers := fun _ => .error "expected value"
    from_str_create_response := fun _ => .error "expected value"
    to_string_config := fun _ => .ok "{}" }

def serdeEncodeFail : SerdeJson :=
  { from_str_containers := fun _ => .error "expected value"
    from_str_create_response := fun _ => .error "expected value"
    to_string_config := fun _ => .error "unsupported type" }

def clientFixedOk : DockerApiClient :=
  { request := fun _ => some "HTTP/1.1 200 OK\r\n\r\nnot json" }

def clientMalformed : DockerApiClient :=
  { request := fun _ => some "garbage" }

/-- Modelled from the spec: a synthetic well-formed HTTP response carrying a
known body — status line, a header, the blank-line separator, then the body. -/
def synthetic_http_response (body : String) : String :=
  "HTTP/1.1 200 OK\r\nContent-Type: application/json" ++ "\r\n\r\n" ++ body

/-- No occurrence of `sep` begins strictly inside `l` when `sep` itself
follows `l`. -/
def noSepInside (sep : List Char) : List Char → Bool
  | [] => true
  | c :: rest => !startsL sep ((c :: rest) ++ sep) && noSepInside sep rest

inductive JVal where
  | null
  | bool (b : Bool)
  | str (s : String)
  | arr (elems : List JVal)
  | obj (members : List (String × JVal))

def hexDigitChar (n : Nat) : Char :=
  if n < 10 then Char.ofNat (48 + n) else Char.ofNat (87 + n)

def escapeCharJ (c : Char) : List Char :=
  if c = '"' then ['\\', '"']
  else if c = '\\' then ['\\', '\\']
  else if c = Char.ofNat 8 then ['\\', 'b']
  else if c = Char.ofNat 12 then ['\\', 'f']
  else if c = '\n' then ['\\', 'n']
  else if c = '\r' then ['\\', 'r']
  else if c = '\t' then ['\\', 't']
  else if c.toNat < 32 then
    ['\\', 'u', '0', '0', hexDigitChar (c.toNat / 16), hexDigitChar (c.toNat % 16)]
  else [c]

def escListJ : List Char → List Char
  | [] => []
  | c :: rest => escapeCharJ c ++ escListJ rest

def renderStrJ (s : String) : List Char :=
  '"' :: (escListJ s.data ++ ['"'])

mutual
def renderJ : JVal → List Char
  | .null => 'n' :: ['u', 'l', 'l']
  | .bool true => 't' :: ['r', 'u', 'e']
  | .bool false => 'f' :: ['a', 'l', 's', 'e']
  | .str s => renderStrJ s
  | .arr [] => ['[', ']']
  | .arr (e :: es) => '[' :: (renderJ e ++ (renderArrTail es ++ [']']))
  | .obj [] => ['{', '}']
  | .obj (m :: ms) => '{' :: (renderMemJ m ++ (renderObjTail ms ++ ['}']))
def renderArrTail : List JVal → List Char
  | [] => []
  | e :: es => ',' :: (renderJ e ++ renderArrTail es)
def renderMemJ : String × JVal → List Char
  | (k, v) => renderStrJ k ++ (':' :: renderJ v)
def renderObjTail : List (String × JVal) → List Char
  | [] => []
  | m :: ms => ',' :: (renderMemJ m ++ renderObjTail ms)
end

/-- Model of `serde_json::to_string` output for a JSON value tree. -/
def renderJson (j : JVal) : String := String.mk (renderJ j)

def isHexDigit (c : Char) : Bool :=
  ('0' ≤ c && c ≤ '9') || ('a' ≤ c && c ≤ 'f') || ('A' ≤ c && c ≤ 'F')

def pStr : List Char → Option (List Char)
  | [] => none
  | c :: rest =>
    if c = '"' then some rest
    else if c = '\\' then
      match rest with
      | 'u' :: a :: b :: c2 :: d :: r2 =>
        if isHexDigit a && isHexDigit b && isHexDigit c2 && isHexDigit d then pStr r2
        else none
      | e :: r2 =>
        if e = '"' || e = '\\' || e = '/' || e = 'b' || e = 'f'
            || e = 'n' || e = 'r' || e = 't'
        then pStr r2 else none
      | [] => none
    else if 31 < c.toNat then pStr rest else none

def skipDigits : List Char → List Char
  | c :: rest => if c.isDigit then skipDigits rest else c :: rest
  | [] => []

def pDigits1 : List Char → Option (List Char)
  | c :: rest => if c.isDigit then some (skipDigits rest) else none
  | [] => none

def pIntPart : List Char → Option (List Char)
  | '0' :: rest => some rest
  | c :: rest => if c.isDigit then some (skipDigits rest) else none
  | [] => none

def pFrac : List Char → Option (List Char)
  | '.' :: rest => pDigits1 rest
  | l => some l

def pExp : List Char → Option (List Char)
  | 'e' :: '+' :: rest => pDigits1 rest
  | 'e' :: '-' :: rest => pDigits1 rest
  | 'e' :: rest => pDigits1 rest
  | 'E' :: '+' :: rest => pDigits1 rest
  | 'E' :: '-' :: rest => pDigits1 rest
  | 'E' :: rest => pDigits1 rest
  | l => some l

def pNum (l : List Char) : Option (List Char) :=
  match (match l with | '-' :: r => r | _ => l) with
  | l1 =>
    match pIntPart l1 with
    | none => none
    | some r1 =>
      match pFrac r1 with
      | none => none
      | some r2 => pExp r2

mutual
def pVal : Nat → List Char → Option (List Char)
  | 0, _ => none
  | fuel + 1, l =>
    match l with
    | [] => none
    | c :: rest =>
      if c = 'n' then
        match rest with
        | 'u' :: 'l' :: 'l' :: r => some r
        | _ => none
      else if c = 't' then
        match rest with
        | 'r' :: 'u' :: 'e' :: r => some r
        | _ => none
      else if c = 'f' then
        match rest with
        | 'a' :: 'l' :: 's' :: 'e' :: r => some r
        | _ => none
      else if c = '"' then pStr rest
      else if c = '[' then
        match rest with
        | ']' :: r => some r
        | _ => pElems fuel rest
      else if c = '{' then
        match rest with
        | '}' :: r => some r
        | _ => pMembers fuel rest
      else if c = '-' || c.isDigit then pNum (c :: rest)
      else none
def pElems : Nat → List Char → Option (List Char)
  | 0, _ => none
  | fuel + 1, l =>
    match pVal fuel l with
    | some (',' :: r) => pElems fuel r
    | some (']' :: r) => some r
    | _ => none
def pMembers : Nat → List Char → Option (List Char)
  | 0, _ => none
  | fuel + 1, l =>
    match l with
    | '"' :: r =>
      (match pStr r with
       | some (':' :: r2) =>
         (match pVal fuel r2 with
          | some (',' :: r3) => pMembers fuel r3
          | some ('}' :: r3) => some r3
          | _ => none)
       | _ => none)
    | _ => none
end

/-- A strict JSON document checker: a single value spanning the whole input. -/
def isValidJson (s : String) : Bool :=
  match pVal (s.data.length + 1) s.data with
  | some [] => true
  | _ => false

/-- The JSON value tree serde's derived serializer produces for a
`ContainerConfig`: one object member per field, in declaration order. -/
def configToJson (c : ContainerConfig) : JVal :=
  .obj [("Image", .str c.Image),
        ("Cmd", .arr (c.Cmd.map .str)),
        ("Hostname", .str c.Hostname),
        ("Domainname", .str c.Domainname),
        ("User", .str c.User),
        ("AttachStdin", .bool c.AttachStdin),
        ("AttachStdout", .bool c.AttachStdout),
        ("AttachStderr", .bool c.AttachStderr),
        ("Tty", .bool c.Tty),
        ("OpenStdin", .bool c.OpenStdin),
        ("StdinOnce", .bool c.StdinOnce),
        ("Env", .arr (c.Env.map .str)),
        ("Entrypoint", .str c.Entrypoint),
        ("Labels", match c.Labels with
          | none => .null
          | some m => .obj (m.map fun kv => (kv.1, .str kv.2))),
        ("WorkingDir", .str c.WorkingDir)]

/-- Model of `serde_json::to_string` on a `ContainerConfig`. -/
def serde_to_string_config (c : ContainerConfig) : String :=
  renderJson (configToJson c)

/-!
## Helper lemmas
-/

theorem startsL_append_r (p : List Char) :
    ∀ l t : List Char, startsL p l = true → startsL p (l ++ t) = true := by
  induction p with
  | nil => intro l t _; rfl
  | cons a as ih =>
    intro l t h
    cases l with
    | nil => simp [startsL] at h
    | cons b bs =>
      simp only [startsL, Bool.and_eq_true] at h ⊢
      exact ⟨h.1, ih bs t h.2⟩

theorem hasSubL_append_r (p : List Char) :
    ∀ l t : List Char, hasSubL p l = true → hasSubL p (l ++ t) = true := by
  intro l
  induction l with
  | nil =>
    intro t h
    simp only [hasSubL] at h
    cases p with
    | nil =>
      cases t with
      | nil => exact h
      | cons c cs => simp [hasSubL, startsL]
    | cons a as => simp [startsL] at h
  | cons c cs ih =>
    intro t h
    simp only [hasSubL, Bool.or_eq_true] at h ⊢
    cases h with
    | inl h => exact Or.inl (startsL_append_r p (c :: cs) t h)
    | inr h => exact Or.inr (ih t h)

theorem startsL_refl : ∀ p : List Char, startsL p p = true := by
  intro p
  induction p with
  | nil => rfl
  | cons a as ih => simp [startsL, ih]

theorem hasSubL_self (p : List Char) : hasSubL p p = true := by
  cases p with
  | nil => rfl
  | cons a as => simp [hasSubL, startsL_refl]

theorem hasSubL_append_l (p : List Char) :
    ∀ l t : List Char, hasSubL p t = true → hasSubL p (l ++ t) = true := by
  intro l
  induction l with
  | nil => intro t h; exact h
  | cons c cs ih =>
    intro t h
    simp only [List.cons_append, hasSubL, Bool.or_eq_true]
    exact Or.inr (ih t h)

theorem string_append_ne_of_length_lt (s t : String) (h : t.length < s.length)
    (u : String) : s ++ u ≠ t := by
  intro he
  have hl := congrArg String.length he
  rw [String.length_append] at hl
  omega

theorem serialize_msg_ne_deserialize_msg (e d : String) :
    "Error while serialize Cotainer config : " ++ e
      ≠ "Error while deserializing JSON response : " ++ d := by
  intro h
  have h2 := congrArg (fun s => s.data[12]?) h
  simp only [String.data_append] at h2
  rw [List.getElem?_append_left (by decide), List.getElem?_append_left (by decide)] at h2
  exact absurd h2 (by decide)

theorem startsL_append_of_le (p : List Char) :
    ∀ s u : List Char, p.length ≤ s.length → startsL p (s ++ u) = startsL p s := by
  induction p with
  | nil => intro s u _; rfl
  | cons a as ih =>
    intro s u h
    cases s with
    | nil => simp at h
    | cons b bs =>
      simp only [List.cons_append, startsL, List.append_eq]
      rw [ih bs u (by simp only [List.length_cons] at h; omega)]

theorem drop_length_append (p : List Char) :
    ∀ t : List Char, (p ++ t).drop p.length = t := by
  induction p with
  | nil => intro t; rfl
  | cons a as ih => intro t; simpa using ih t

theorem extractAfterSep_of_noSepInside (sep : List Char) (hne : sep ≠ []) :
    ∀ H B : List Char, noSepInside sep H = true →
    extractAfterSep sep (H ++ (sep ++ B)) = some B := by
  intro H
  induction H with
  | nil =>
    intro B _
    rw [List.nil_append]
    cases hs : sep with
    | nil => exact absurd hs hne
    | cons s0 ss =>
      have h1 : startsL (s0 :: ss) (s0 :: (ss ++ B)) = true := by
        have h2 := startsL_append_r (s0 :: ss) (s0 :: ss) B (startsL_refl (s0 :: ss))
        simpa using h2
      rw [show (s0 :: ss) ++ B = s0 :: (ss ++ B) from rfl]
      simp only [extractAfterSep, h1, if_true]
      rw [show s0 :: (ss ++ B) = (s0 :: ss) ++ B from rfl, drop_length_append]
  | cons c rest ih =>
    intro B hclean
    simp only [noSepInside, Bool.and_eq_true, Bool.not_eq_true'] at hclean
    obtain ⟨hhead, htail⟩ := hclean
    show (if startsL sep (c :: (rest ++ (sep ++ B))) then
            some ((c :: (rest ++ (sep ++ B))).drop sep.length)
          else extractAfterSep sep (rest ++ (sep ++ B))) = some B
    have hfalse : startsL sep (c :: (rest ++ (sep ++ B))) = false := by
      have h1 : c :: (rest ++ (sep ++ B)) = ((c :: rest) ++ sep) ++ B := by simp
      rw [h1, startsL_append_of_le sep ((c :: rest) ++ sep) B
        (by simp only [List.length_append, List.length_cons]; omega)]
      exact hhead
    rw [hfalse]
    simp only [Bool.false_eq_true, if_false]
    exact ih B htail

theorem hexDigitChar_isHex : ∀ n : Nat, n < 16 → isHexDigit (hexDigitChar n) = true := by decide

theorem pStr_other (c : Char) (h1 : c ≠ '"') (h2 : c ≠ '\\')
    (h3 : 31 < c.toNat) (l : List Char) : pStr (c :: l) = pStr l := by
  rw [pStr.eq_def]
  simp only []
  rw [if_neg h1, if_neg h2, if_pos h3]

theorem pStr_escListJ : ∀ l rest : List Char,
    pStr (escListJ l ++ ('"' :: rest)) = some rest := by
  intro l
  induction l with
  | nil =>
    intro rest
    show pStr ('"' :: rest) = some rest
    rw [pStr.eq_def]; rfl
  | cons c cs ih =>
    intro rest
    show pStr (escapeCharJ c ++ escListJ cs ++ ('"' :: rest)) = some rest
    unfold escapeCharJ
    split_ifs with h1 h2 h3 h4 h5 h6 h7 h8
    · refine Eq.trans ?_ (ih rest)
      show pStr ('\\' :: '"' :: (escListJ cs ++ ('"' :: rest)))
        = pStr (escListJ cs ++ ('"' :: rest))
      rw [pStr.eq_def]; rfl
    · refine Eq.trans ?_ (ih rest)
      show pStr ('\\' :: '\\' :: (escListJ cs ++ ('"' :: rest)))
        = pStr (escListJ cs ++ ('"' :: rest))
      rw [pStr.eq_def]; rfl
    · refine Eq.trans ?_ (ih rest)
      show pStr ('\\' :: 'b' :: (escListJ cs ++ ('"' :: rest)))
        = pStr (escListJ cs ++ ('"' :: rest))
      rw [pStr.eq_def]; rfl
    · refine Eq.trans ?_ (ih rest)
      show pStr ('\\' :: 'f' :: (escListJ cs ++ ('"' :: rest)))
        = pStr (escListJ cs ++ ('"' :: rest))
      rw [pStr.eq_def]; rfl
    · refine Eq.trans ?_ (ih rest)
      show pStr ('\\' :: 'n' :: (escListJ cs ++ ('"' :: rest)))
        = pStr (escListJ cs ++ ('"' :: rest))
      rw [pStr.eq_def]; rfl
    · refine Eq.trans ?_ (ih rest)
      show pStr ('\\' :: 'r' :: (escListJ cs ++ ('"' :: rest)))
        = pStr (escListJ cs ++ ('"' :: rest))
      rw [pStr.eq_def]; rfl
    · refine Eq.trans ?_ (ih rest)
      show pStr ('\\' :: 't' :: (escListJ cs ++ ('"' :: rest)))
        = pStr (escListJ cs ++ ('"' :: rest))
      rw [pStr.eq_def]; rfl
    · refine Eq.trans ?_ (ih rest)
      show pStr ('\\' :: 'u' :: '0' :: '0' :: hexDigitChar (c.toNat / 16)
          :: hexDigitChar (c.toNat % 16) :: (escListJ cs ++ ('"' :: rest)))
        = pStr (escListJ cs ++ ('"' :: rest))
      have ha : isHexDigit (hexDigitChar (c.toNat / 16)) = true :=
        hexDigitChar_isHex _ (by omega)
      have hb : isHexDigit (hexDigitChar (c.toNat % 16)) = true :=
        hexDigitChar_isHex _ (by omega)
      have h0 : isHexDigit '0' = true := by decide
      rw [pStr.eq_def]
      simp [ha, hb, h0]
    · refine Eq.trans ?_ (ih rest)
      show pStr (c :: (escListJ cs ++ ('"' :: rest)))
        = pStr (escListJ cs ++ ('"' :: rest))
      exact pStr_other c h1 h2 (by omega) _

theorem renderJ_head (j : JVal) :
    ∃ c t, renderJ j = c :: t ∧ c ≠ ']' ∧ c ≠ '}' := by
  cases j with
  | null => exact ⟨'n', ['u', 'l', 'l'], by simp [renderJ], by decide, by decide⟩
  | bool b =>
    cases b with
    | true => exact ⟨'t', ['r', 'u', 'e'], by simp [renderJ], by decide, by decide⟩
    | false => exact ⟨'f', ['a', 'l', 's', 'e'], by simp [renderJ], by decide, by decide⟩
  | str s =>
    exact ⟨'"', escListJ s.data ++ ['"'], by simp [renderJ, renderStrJ], by decide, by decide⟩
  | arr es =>
    cases es with
    | nil => exact ⟨'[', [']'], by simp [renderJ], by decide, by decide⟩
    | cons e es2 =>
      exact ⟨'[', renderJ e ++ (renderArrTail es2 ++ [']']), by simp [renderJ],
        by decide, by decide⟩
  | obj ms =>
    cases ms with
    | nil => exact ⟨'{', ['}'], by simp [renderJ], by decide, by decide⟩
    | cons m ms2 =>
      exact ⟨'{', renderMemJ m ++ (renderObjTail ms2 ++ ['}']), by simp [renderJ],
        by decide, by decide⟩

theorem pVal_bracket (f : Nat) (c : Char) (t : List Char) (h : c ≠ ']') :
    pVal (f + 1) ('[' :: (c :: t)) = pElems f (c :: t) := by
  simp only [pVal]
  rw [if_neg (by decide), if_neg (by decide), if_neg (by decide), if_neg (by decide),
    if_pos (by decide)]
  split
  · rename_i heq; injection heq with hc _; exact absurd hc h
  · rfl

theorem pVal_brace (f : Nat) (c : Char) (t : List Char) (h : c ≠ '}') :
    pVal (f + 1) ('{' :: (c :: t)) = pMembers f (c :: t) := by
  simp only [pVal]
  rw [if_neg (by decide), if_neg (by decide), if_neg (by decide), if_neg (by decide),
    if_neg (by decide), if_pos (by decide)]
  split
  · rename_i heq; injection heq with hc _; exact absurd hc h
  · rfl

theorem pVal_quote (f : Nat) (rest : List Char) :
    pVal (f + 1) ('"' :: rest) = pStr rest := by
  simp only [pVal]
  rw [if_neg (by decide), if_neg (by decide), if_neg (by decide), if_pos (by decide)]

theorem pVal_null_lit (f : Nat) (rest : List Char) :
    pVal (f + 1) ('n' :: 'u' :: 'l' :: 'l' :: rest) = some rest := by
  simp [pVal]

theorem pVal_true_lit (f : Nat) (rest : List Char) :
    pVal (f + 1) ('t' :: 'r' :: 'u' :: 'e' :: rest) = some rest := by
  simp [pVal]

theorem pVal_false_lit (f : Nat) (rest : List Char) :
    pVal (f + 1) ('f' :: 'a' :: 'l' :: 's' :: 'e' :: rest) = some rest := by
  simp [pVal]

theorem pVal_arr_nil (f : Nat) (rest : List Char) :
    pVal (f + 1) ('[' :: ']' :: rest) = some rest := by
  simp [pVal]

theorem pVal_obj_nil (f : Nat) (rest : List Char) :
    pVal (f + 1) ('{' :: '}' :: rest) = some rest := by
  simp [pVal]

mutual
theorem pVal_renderJ : ∀ (j : JVal) (fuel : Nat) (rest : List Char),
    (renderJ j).length < fuel → pVal fuel (renderJ j ++ rest) = some rest
  | .null, fuel, rest, hf => by
    rw [show renderJ .null = ['n', 'u', 'l', 'l'] from by simp [renderJ]] at hf ⊢
    cases fuel with
    | zero => exact absurd hf (by simp)
    | succ f => exact pVal_null_lit f rest
  | .bool true, fuel, rest, hf => by
    rw [show renderJ (.bool true) = ['t', 'r', 'u', 'e'] from by simp [renderJ]] at hf ⊢
    cases fuel with
    | zero => exact absurd hf (by simp)
    | succ f => exact pVal_true_lit f rest
  | .bool false, fuel, rest, hf => by
    rw [show renderJ (.bool false) = ['f', 'a', 'l', 's', 'e'] from by simp [renderJ]] at hf ⊢
    cases fuel with
    | zero => exact absurd hf (by simp)
    | succ f => exact pVal_false_lit f rest
  | .str s, fuel, rest, hf => by
    rw [show renderJ (.str s) = '"' :: (escListJ s.data ++ ['"'])
      from by simp [renderJ, renderStrJ]] at hf ⊢
    cases fuel with
    | zero => exact absurd hf (by simp)
    | succ f =>
      rw [show ('"' :: (escListJ s.data ++ ['"'])) ++ rest
        = '"' :: (escListJ s.data ++ ('"' :: rest)) from by simp]
      rw [pVal_quote f]
      exact pStr_escListJ s.data rest
  | .arr [], fuel, rest, hf => by
    rw [show renderJ (.arr []) = ['[', ']'] from by simp [renderJ]] at hf ⊢
    cases fuel with
    | zero => exact absurd hf (by simp)
    | succ f => exact pVal_arr_nil f rest
  | .arr (e :: es), fuel, rest, hf => by
    rw [show renderJ (.arr (e :: es)) = '[' :: (renderJ e ++ (renderArrTail es ++ [']']))
      from by simp [renderJ]] at hf ⊢
    cases fuel with
    | zero => exact absurd hf (by simp)
    | succ f =>
      rw [show ('[' :: (renderJ e ++ (renderArrTail es ++ [']']))) ++ rest
        = '[' :: (renderJ e ++ (renderArrTail es ++ (']' :: rest))) from by simp]
      obtain ⟨c, t, hct, hc1, _⟩ := renderJ_head e
      rw [show renderJ e ++ (renderArrTail es ++ (']' :: rest))
        = c :: (t ++ (renderArrTail es ++ (']' :: rest))) from by rw [hct]; rfl]
      rw [pVal_bracket f c _ hc1]
      rw [show c :: (t ++ (renderArrTail es ++ (']' :: rest)))
        = renderJ e ++ (renderArrTail es ++ (']' :: rest)) from by rw [hct]; rfl]
      refine pElems_renderArr e es f rest ?_
      simp only [List.length_cons, List.length_append] at hf
      simp only [List.length_cons, List.length_nil] at hf
      omega
  | .obj [], fuel, rest, hf => by
    rw [show renderJ (.obj []) = ['{', '}'] from by simp [renderJ]] at hf ⊢
    cases fuel with
    | zero => exact absurd hf (by simp)
    | succ f => exact pVal_obj_nil f rest
  | .obj ((k, v) :: ms), fuel, rest, hf => by
    rw [show renderJ (.obj ((k, v) :: ms))
        = '{' :: (renderMemJ (k, v) ++ (renderObjTail ms ++ ['}']))
      from by simp [renderJ]] at hf ⊢
    cases fuel with
    | zero => exact absurd hf (by simp)
    | succ f =>
      rw [show ('{' :: (renderMemJ (k, v) ++ (renderObjTail ms ++ ['}']))) ++ rest
        = '{' :: (renderMemJ (k, v) ++ (renderObjTail ms ++ ('}' :: rest))) from by simp]
      rw [show renderMemJ (k, v) ++ (renderObjTail ms ++ ('}' :: rest))
        = '"' :: ((escListJ k.data ++ ['"']) ++ (':' :: renderJ v)
            ++ (renderObjTail ms ++ ('}' :: rest)))
        from by simp [renderMemJ, renderStrJ]]
      rw [pVal_brace f '"' _ (by decide)]
      rw [show '"' :: ((escListJ k.data ++ ['"']) ++ (':' :: renderJ v)
            ++ (renderObjTail ms ++ ('}' :: rest)))
        = renderMemJ (k, v) ++ (renderObjTail ms ++ ('}' :: rest))
        from by simp [renderMemJ, renderStrJ]]
      refine pMembers_renderObj k v ms f rest ?_
      simp only [List.length_cons, List.length_append, List.length_nil] at hf
      omega
termination_by j _ _ _ => 2 * sizeOf j
decreasing_by all_goals (subst_vars; simp_wf; omega)

theorem pElems_renderArr : ∀ (e : JVal) (es : List JVal) (fuel : Nat) (rest : List Char),
    (renderJ e).length + (renderArrTail es).length + 1 < fuel →
    pElems fuel (renderJ e ++ (renderArrTail es ++ (']' :: rest))) = some rest
  | e, [], fuel, rest, hf => by
    cases fuel with
    | zero => exact absurd hf (by omega)
    | succ f =>
      have h1 : pVal f (renderJ e ++ (renderArrTail [] ++ (']' :: rest)))
          = some (renderArrTail [] ++ (']' :: rest)) :=
        pVal_renderJ e f _ (by omega)
      simp only [pElems, h1]
      simp [renderArrTail]
  | e, e2 :: es2, fuel, rest, hf => by
    cases fuel with
    | zero => exact absurd hf (by omega)
    | succ f =>
      have h1 : pVal f (renderJ e ++ (renderArrTail (e2 :: es2) ++ (']' :: rest)))
          = some (renderArrTail (e2 :: es2) ++ (']' :: rest)) :=
        pVal_renderJ e f _ (by omega)
      simp only [pElems, h1]
      have h2 : renderArrTail (e2 :: es2) ++ (']' :: rest)
          = ',' :: (renderJ e2 ++ (renderArrTail es2 ++ (']' :: rest))) := by
        simp [renderArrTail]
      rw [h2]
      have h3 : (renderArrTail (e2 :: es2)).length
          = 1 + (renderJ e2).length + (renderArrTail es2).length := by
        simp [renderArrTail, List.length_append]
        omega
      exact pElems_renderArr e2 es2 f rest (by omega)
termination_by e es _ _ _ => 2 * (sizeOf e + sizeOf es) + 1
decreasing_by all_goals (subst_vars; simp_wf; omega)

theorem pMembers_renderObj : ∀ (k : String) (v : JVal) (ms : List (String × JVal))
    (fuel : Nat) (rest : List Char),
    (renderMemJ (k, v)).length + (renderObjTail ms).length + 1 < fuel →
    pMembers fuel (renderMemJ (k, v) ++ (renderObjTail ms ++ ('}' :: rest))) = some rest
  | k, v, [], fuel, rest, hf => by
    cases fuel with
    | zero => exact absurd hf (by omega)
    | succ f =>
      have hmlen : (renderMemJ (k, v)).length
          = (escListJ k.data).length + 3 + (renderJ v).length := by
        simp [renderMemJ, renderStrJ, List.length_append]
        omega
      rw [show renderMemJ (k, v) ++ (renderObjTail [] ++ ('}' :: rest))
        = '"' :: (escListJ k.data
            ++ ('"' :: (':' :: (renderJ v ++ (renderObjTail [] ++ ('}' :: rest))))))
        from by simp [renderMemJ, renderStrJ]]
      simp only [pMembers]
      rw [pStr_escListJ k.data (':' :: (renderJ v ++ (renderObjTail [] ++ ('}' :: rest))))]
      simp only []
      rw [pVal_renderJ v f (renderObjTail [] ++ ('}' :: rest)) (by omega)]
      simp [renderObjTail]
  | k, v, (k2, v2) :: ms2, fuel, rest, hf => by
    cases fuel with
    | zero => exact absurd hf (by omega)
    | succ f =>
      have hmlen : (renderMemJ (k, v)).length
          = (escListJ k.data).length + 3 + (renderJ v).length := by
        simp [renderMemJ, renderStrJ, List.length_append]
        omega
      rw [show renderMemJ (k, v) ++ (renderObjTail ((k2, v2) :: ms2) ++ ('}' :: rest))
        = '"' :: (escListJ k.data
            ++ ('"' :: (':' :: (renderJ v
              ++ (renderObjTail ((k2, v2) :: ms2) ++ ('}' :: rest))))))
        from by simp [renderMemJ, renderStrJ]]
      simp only [pMembers]
      rw [pStr_escListJ k.data
        (':' :: (renderJ v ++ (renderObjTail ((k2, v2) :: ms2) ++ ('}' :: rest))))]
      simp only []
      rw [pVal_renderJ v f (renderObjTail ((k2, v2) :: ms2) ++ ('}' :: rest)) (by omega)]
      have h2 : renderObjTail ((k2, v2) :: ms2) ++ ('}' :: rest)
          = ',' :: (renderMemJ (k2, v2) ++ (renderObjTail ms2 ++ ('}' :: rest))) := by
        simp [renderObjTail]
      rw [h2]
      have h3 : (renderObjTail ((k2, v2) :: ms2)).length
          = 1 + (renderMemJ (k2, v2)).length + (renderObjTail ms2).length := by
        simp [renderObjTail, List.length_append]
        omega
      exact pMembers_renderObj k2 v2 ms2 f rest (by omega)
termination_by k v ms _ _ _ => 2 * (sizeOf v + sizeOf ms) + 1
decreasing_by all_goals (subst_vars; simp_wf; omega)
end

theorem renderJson_valid (j : JVal) : isValidJson (renderJson j) = true := by
  have h := pVal_renderJ j ((renderJ j).length + 1) [] (by omega)
  rw [List.append_nil] at h
  show (match pVal ((renderJ j).length + 1) (renderJ j) with
        | some [] => true
        | _ => false) = true
  rw [h]

/-!
## The claims
-/

/-- C1: for every (api_endpoint, method, body) input and every transport,
`get_response_from_api` returns either the extracted body string or exactly one
of three failure messages — a formatting failure, a transport failure, a
framing failure — and the three messages are pairwise distinct. -/
theorem get_response_from_api_taxonomy (c : DockerApiClient)
    (api_endpoint method body : String) :
    ((∃ s, get_response_from_api c api_endpoint method body = .ok s)
      ∨ get_response_from_api c api_endpoint method body
          = .error "Error while preparing request"
      ∨ get_response_from_api c api_endpoint method body
          = .error "Got no response from docker host."
      ∨ get_response_from_api c api_endpoint method body
          = .error "Response body was not valid")
    ∧ ("Error while preparing request" ≠ "Got no response from docker host."
      ∧ "Error while preparing request" ≠ "Response body was not valid"
      ∧ "Got no response from docker host." ≠ "Response body was not valid") := by
  refine ⟨?_, by decide, by decide, by decide⟩
  cases h1 : get_formatted_api_request api_endpoint method body with
  | none => exact Or.inr (Or.inl (by simp [get_response_from_api, h1]))
  | some req =>
    cases h2 : c.request req with
    | none => exact Or.inr (Or.inr (Or.inl (by simp [get_response_from_api, h1, h2])))
    | some resp =>
      cases h3 : parse_http_response_body resp with
      | none => exact Or.inr (Or.inr (Or.inr (by simp [get_response_from_api, h1, h2, h3])))
      | some b => exact Or.inl ⟨b, by simp [get_response_from_api, h1, h2, h3]⟩

/-- C2: `list_all_containers_query (some n)` is exactly
`?all=true&size=true&limit=n` and `list_all_containers_query none` is exactly
`?all=true&size=true` (in particular `limit=5` at 5), and `list_all_containers`
passes exactly this query string to `get_containers`. -/
theorem list_all_containers_query_spec :
    (∀ n : Nat, list_all_containers_query (some n)
        = "?all=true&size=true&limit=" ++ toString n)
    ∧ list_all_containers_query none = "?all=true&size=true"
    ∧ list_all_containers_query (some 5) = "?all=true&size=true&limit=5"
    ∧ ∀ (sj : SerdeJson) (c : DockerApiClient) (limit : Option Nat),
        list_all_containers sj c limit
          = get_containers sj c "/containers/json" "GET"
              (list_all_containers_query limit) :=
  ⟨fun n => rfl, rfl, by decide, fun sj c limit => rfl⟩

/-- C3: when the extracted response body fails container-list JSON decoding
with diagnostic `d`, `get_containers` returns an error whose message contains
`d`, and that message is distinct from the three transport-level failure
messages. -/
theorem get_containers_decode_failure (sj : SerdeJson) (c : DockerApiClient)
    (api_endpoint method query_param body d : String)
    (hok : get_response_from_api c api_endpoint method query_param = .ok body)
    (hdec : sj.from_str_containers body = .error d) :
    get_containers sj c api_endpoint method query_param
        = .error ("Error while deserializing JSON response : " ++ d)
    ∧ hasSubstr ("Error while deserializing JSON response : " ++ d) d = true
    ∧ "Error while deserializing JSON response : " ++ d
        ≠ "Got no response from docker host."
    ∧ "Error while deserializing JSON response : " ++ d
        ≠ "Error while preparing request"
    ∧ "Error while deserializing JSON response : " ++ d
        ≠ "Response body was not valid" := by
  refine ⟨by simp [get_containers, hok, hdec], ?_,
    string_append_ne_of_length_lt _ _ (by decide) _,
    string_append_ne_of_length_lt _ _ (by decide) _,
    string_append_ne_of_length_lt _ _ (by decide) _⟩
  show hasSubL _ ("Error while deserializing JSON response : " ++ d).data = true
  rw [String.data_append]
  exact hasSubL_append_l _ _ _ (hasSubL_self _)

/-- Witness for C3 at a concrete client whose response body decodes with an
error. -/
theorem get_containers_decode_failure_witness :
    get_containers serdeDecodeFail clientFixedOk "/containers/json" "GET" ""
      = .error ("Error while deserializing JSON response : " ++ "expected value") :=
  (get_containers_decode_failure serdeDecodeFail clientFixedOk
    "/containers/json" "GET" "" "not json" "expected value" rfl rfl).1

/-- C4: `create_container_minimal` builds a `ContainerConfig` whose `Image`
and `Cmd` are the supplied values and whose every other field holds its
documented default (empty strings and sequences, false booleans, absent
labels), and this configuration serializes to valid JSON. -/
theorem create_container_minimal_spec (name image : String) (cmd : List String) :
    (container_config_minimal image cmd).Image = image
    ∧ (container_config_minimal image cmd).Cmd = cmd
    ∧ (container_config_minimal image cmd).Hostname = ""
    ∧ (container_config_minimal image cmd).Domainname = ""
    ∧ (container_config_minimal image cmd).User = ""
    ∧ (container_config_minimal image cmd).AttachStdin = false
    ∧ (container_config_minimal image cmd).AttachStdout = false
    ∧ (container_config_minimal image cmd).AttachStderr = false
    ∧ (container_config_minimal image cmd).Tty = false
    ∧ (container_config_minimal image cmd).OpenStdin = false
    ∧ (container_config_minimal image cmd).StdinOnce = false
    ∧ (container_config_minimal image cmd).Env = []
    ∧ (container_config_minimal image cmd).Entrypoint = ""
    ∧ (container_config_minimal image cmd).Labels = none
    ∧ (container_config_minimal image cmd).WorkingDir = ""
    ∧ isValidJson (serde_to_string_config (container_config_minimal image cmd)) = true
    ∧ ∀ (sj : SerdeJson) (c : DockerApiClient),
        create_container_minimal sj c name image cmd
          = create_container sj c name (container_config_minimal image cmd) :=
  ⟨rfl, rfl, rfl, rfl, rfl, rfl, rfl, rfl, rfl, rfl, rfl, rfl, rfl, rfl, rfl,
    renderJson_valid (configToJson (container_config_minimal image cmd)),
    fun _ _ => rfl⟩

/-- C5 counterexample: the query built by `list_running_containers` for
`none` is `?size=true`, which does not contain `all=true` — refuting the claim
that every listing call's query contains both `size=true` and `all=true`. -/
theorem list_running_containers_query_lacks_all_true :
    hasSubstr (list_running_containers_query none) "all=true" = false := by decide

/-- C5 (amended): every listing query unconditionally contains `size=true`,
and the queries of `list_all_containers` and `get_container_details_with_filter`
also unconditionally contain `all=true`, with no way to opt out;
`list_running_containers` omits `all=true`. -/
theorem listing_queries_unconditional_params :
    ∀ (filter : String) (limit : Option Nat),
    hasSubstr (list_running_containers_query limit) "size=true" = true
    ∧ hasSubstr (list_all_containers_query limit) "size=true" = true
    ∧ hasSubstr (list_all_containers_query limit) "all=true" = true
    ∧ hasSubstr (get_container_details_with_filter_query filter limit) "size=true" = true
    ∧ hasSubstr (get_container_details_with_filter_query filter limit) "all=true" = true := by
  intro filter limit
  cases limit with
  | none =>
    refine ⟨by decide, by decide, by decide, ?_, ?_⟩
    · show hasSubL _ ("?all=true&size=true&filter=" ++ filter).data = true
      rw [String.data_append]
      exact hasSubL_append_r _ _ _ (by decide)
    · show hasSubL _ ("?all=true&size=true&filter=" ++ filter).data = true
      rw [String.data_append]
      exact hasSubL_append_r _ _ _ (by decide)
  | some n =>
    refine ⟨?_, ?_, ?_, ?_, ?_⟩
    · show hasSubL _ ("?size=true&limit=" ++ toString n).data = true
      rw [String.data_append]
      exact hasSubL_append_r _ _ _ (by decide)
    · show hasSubL _ ("?all=true&size=true&limit=" ++ toString n).data = true
      rw [String.data_append]
      exact hasSubL_append_r _ _ _ (by decide)
    · show hasSubL _ ("?all=true&size=true&limit=" ++ toString n).data = true
      rw [String.data_append]
      exact hasSubL_append_r _ _ _ (by decide)
    · show hasSubL _ ("?all=true&size=true&limit=" ++ toString n ++ "&filter=" ++ filter).data = true
      rw [String.data_append, String.data_append, String.data_append]
      exact hasSubL_append_r _ _ _ (hasSubL_append_r _ _ _ (hasSubL_append_r _ _ _ (by decide)))
    · show hasSubL _ ("?all=true&size=true&limit=" ++ toString n ++ "&filter=" ++ filter).data = true
      rw [String.data_append, String.data_append, String.data_append]
      exact hasSubL_append_r _ _ _ (hasSubL_append_r _ _ _ (hasSubL_append_r _ _ _ (by decide)))

/-- C6: `get_container_details_with_filter_query` follows the grammar
`?all=true&size=true&limit=N&filter=F`, with the limit parameter present
exactly when a limit was supplied, and the operation passes exactly this query
to `get_containers`. -/
theorem get_container_details_with_filter_query_spec :
    (∀ (f : String) (n : Nat),
      get_container_details_with_filter_query f (some n)
        = "?all=true&size=true&limit=" ++ toString n ++ "&filter=" ++ f)
    ∧ (∀ f : String,
      get_container_details_with_filter_query f none
        = "?all=true&size=true&filter=" ++ f)
    ∧ ∀ (sj : SerdeJson) (c : DockerApiClient) (f : String) (limit : Option Nat),
        get_container_details_with_filter sj c f limit
          = get_containers sj c "/containers/json" "GET"
              (get_container_details_with_filter_query f limit) :=
  ⟨fun f n => rfl, fun f => rfl, fun sj c f limit => rfl⟩

/-- C7: when serializing the configuration fails with diagnostic `e`,
`create_container` returns the encode-failure message carrying `e`, the result
is identical for every transport and every serializer that so fails (no
request is performed, no later step executed), and the message is distinct
from every other error kind. -/
theorem create_container_encode_failure (sj sj2 : SerdeJson) (c c2 : DockerApiClient)
    (name : String) (config : ContainerConfig) (e : String)
    (henc : sj.to_string_config config = .error e)
    (henc2 : sj2.to_string_config config = .error e) :
    create_container sj c name config
        = .error ("Error while serialize Cotainer config : " ++ e)
    ∧ create_container sj c name config = create_container sj c2 name config
    ∧ create_container sj c name config = create_container sj2 c name config
    ∧ ("Error while serialize Cotainer config : " ++ e) ≠ "Error while preparing request"
    ∧ ("Error while serialize Cotainer config : " ++ e) ≠ "Got no response from docker host."
    ∧ ("Error while serialize Cotainer config : " ++ e) ≠ "Response body was not valid"
    ∧ ∀ d, ("Error while serialize Cotainer config : " ++ e)
        ≠ "Error while deserializing JSON response : " ++ d := by
  refine ⟨by simp [create_container, henc], by simp [create_container, henc],
    by simp [create_container, henc, henc2],
    string_append_ne_of_length_lt _ _ (by decide) _,
    string_append_ne_of_length_lt _ _ (by decide) _,
    string_append_ne_of_length_lt _ _ (by decide) _,
    fun d => serialize_msg_ne_deserialize_msg e d⟩

/-- Witness for C7 at a concrete serializer whose encoding fails. -/
theorem create_container_encode_failure_witness :
    create_container serdeEncodeFail clientFixedOk "my_container" ContainerConfig.default
      = .error ("Error while serialize Cotainer config : " ++ "unsupported type") :=
  (create_container_encode_failure serdeEncodeFail serdeEncodeFail clientFixedOk
    clientMalformed "my_container" ContainerConfig.default "unsupported type" rfl rfl).1

/-- C8: JSON decoding is attempted exactly on the body extracted by
`get_response_from_api` and never on the raw response: on a transport-level
error (in particular the framing failure) the error is returned unchanged and
the result does not depend on the decoder; the same holds for
`create_container`. -/
theorem json_decode_only_on_extracted_body (sj sj2 : SerdeJson) (c : DockerApiClient)
    (api_endpoint method query_param : String) :
    (∀ body, get_response_from_api c api_endpoint method query_param = .ok body →
      get_containers sj c api_endpoint method query_param
        = (match sj.from_str_containers body with
           | .ok info => .ok info
           | .error err => .error ("Error while deserializing JSON response : " ++ err)))
    ∧ (∀ err, get_response_from_api c api_endpoint method query_param = .error err →
        get_containers sj c api_endpoint method query_param = .error err
        ∧ get_containers sj c api_endpoint method query_param
            = get_containers sj2 c api_endpoint method query_param)
    ∧ (∀ (name : String) (config : ContainerConfig) (body err : String),
        sj.to_string_config config = .ok body →
        get_response_from_api c ("/containers/create?name=" ++ name) "POST" body
          = .error err →
        create_container sj c name config = .error err) := by
  refine ⟨?_, ?_, ?_⟩
  · intro body hok
    cases hd : sj.from_str_containers body <;> simp [get_containers, hok, hd]
  · intro err herr
    constructor <;> simp [get_containers, herr]
  · intro name config body err hser hresp
    simp [create_container, hser, hresp]

/-- Witness for C8 at a concrete client returning a malformed response. -/
theorem json_decode_only_on_extracted_body_witness :
    get_containers serdeDecodeFail clientMalformed "/containers/json" "GET" ""
      = .error "Response body was not valid"
    ∧ get_containers serdeDecodeFail clientMalformed "/containers/json" "GET" ""
      = get_containers serdeEncodeFail clientMalformed "/containers/json" "GET" "" :=
  (json_decode_only_on_extracted_body serdeDecodeFail serdeEncodeFail clientMalformed
    "/containers/json" "GET" "").2.1 "Response body was not valid" rfl

/-- C9: for every (path, method, body) triple the request formatter accepts,
parsing a synthetic well-formed HTTP response carrying a known body `B`
recovers exactly `B`. -/
theorem format_then_parse_synthetic_roundtrip (path method body B : String)
    (hfmt : (get_formatted_api_request path method body).isSome = true) :
    parse_http_response_body (synthetic_http_response B) = some B := by
  clear hfmt
  show parse_http_response_body
    ("HTTP/1.1 200 OK\r\nContent-Type: application/json" ++ ("\r\n\r\n" ++ B)) = some B
  unfold parse_http_response_body
  rw [String.data_append, String.data_append]
  have hsep : "\r\n\r\n".data = httpSep := rfl
  rw [hsep]
  have hcons : "HTTP/1.1 200 OK\r\nContent-Type: application/json".data
      = 'H' :: "TTP/1.1 200 OK\r\nContent-Type: application/json".data := rfl
  rw [hcons]
  rw [show (('H' :: "TTP/1.1 200 OK\r\nContent-Type: application/json".data)
      ++ (httpSep ++ B.data)).isEmpty = false from rfl]
  rw [show startsL "HTTP/".data
      (('H' :: "TTP/1.1 200 OK\r\nContent-Type: application/json".data)
        ++ (httpSep ++ B.data))
      = startsL "HTTP/".data
          ('H' :: "TTP/1.1 200 OK\r\nContent-Type: application/json".data)
    from startsL_append_of_le _ _ _ (by decide)]
  rw [show startsL "HTTP/".data
      ('H' :: "TTP/1.1 200 OK\r\nContent-Type: application/json".data) = true from rfl]
  rw [← hcons,
    extractAfterSep_of_noSepInside httpSep (by decide) _ B.data (by decide)]
  rfl

/-- Witness for C9 at a concrete valid triple and body. -/
theorem format_then_parse_synthetic_roundtrip_witness :
    (get_formatted_api_request "/containers/json" "GET" "").isSome = true
    ∧ parse_http_response_body (synthetic_http_response "[]") = some "[]" :=
  ⟨rfl, format_then_parse_synthetic_roundtrip "/containers/json" "GET" "" "[]" rfl⟩

/-- C10: `get_version_info` returns exactly the same result as
`get_response_from_api` at `/info`, `GET`, empty body, for every client: the
same body on success and the identical message in each failure case. -/
theorem get_version_info_eq_get_response_from_api (c : DockerApiClient) :
    get_version_info c = get_response_from_api c "/info" "GET" "" := rfl
